import Mathlib

/-
Verification of the struct-field validation library (package validator).

The embedding models the reflected view of a Go value: a field is a
(name, validate-tag, value) triple, and a value is an integer, a string,
a struct, or a value of some other reflect kind (whose payload the engine
never inspects).  Go strings are modelled as Lean strings (sequences of
unicode scalar values); the Go built-in len on a string is the length of
its UTF-8 encoding, modelled by goLen below.  Go panics (nil input to
Validate, the unsupported-type log.Panicf in parseValidators, and the
failed type assertion on a nested result) are modelled as the none result.
-/

/-- Go reflect.Kind, restricted to the kinds the claims mention; the engine
treats every kind other than Int, String and Struct identically, so the
omitted kinds would add nothing. -/
inductive Kind where
  | Bool
  | Int
  | Int8
  | Int16
  | Int32
  | Int64
  | Uint
  | Uint8
  | Uint16
  | Uint32
  | Uint64
  | Float32
  | Float64
  | Map
  | Pointer
  | Slice
  | Interface
  | Chan
  | Func
  | Array
  | String
  | Struct
deriving DecidableEq

mutual
/-- A reflected Go value: the dynamic type together with the runtime value.
VOther k is a value of any kind other than Int, String and Struct; the
engine never reads such a value, only its kind. -/
inductive RValue where
  | VInt (n : Int)
  | VString (s : String)
  | VStruct (fields : RFields)
  | VOther (k : Kind)

/-- The field list of a reflected struct value, in declaration order.  Each
field carries its name, the value of its validate tag key (none when the
tag lookup fails, mirroring reflect.StructTag.Lookup), and its value. -/
inductive RFields where
  | nil
  | cons (name : String) (tag : Option String) (value : RValue) (rest : RFields)
end

/-- Kind of a reflected value, as reflect Type.Kind returns it. -/
def kindOf : RValue → Kind
  | .VInt _ => Kind.Int
  | .VString _ => Kind.String
  | .VStruct _ => Kind.Struct
  | .VOther k => k

/-- Go reflect.StructField.IsExported: true when the field name starts with
an upper-case letter.  (Go uses the unicode upper-case test; the fields in
the claims all have ASCII names, for which Char.isUpper agrees.) -/
def isExported (name : String) : Bool :=
  match name.data with
  | c :: _ => c.isUpper
  | [] => false

/-- Go reflect.StructTag.Get for the validate key: the looked-up value, or
the empty string when the key is absent. -/
def tagGet (tag : Option String) : String := tag.getD ""

/-- Byte length of the UTF-8 encoding of a string: this is what the Go
built-in len returns on a string. -/
def goLen (s : String) : Nat := (s.data.map Char.utf8Size).sum

/-- Go reflect Value.Int on the modelled value.  The engine only calls the
integer validators on fields of kind Int, so the remaining branches (where
Go reflect would panic) are never exercised; 0 is a placeholder. -/
def goInt : RValue → Int
  | .VInt n => n
  | _ => 0

/-- Go reflect Value.String on the modelled value.  The engine only calls
the string validators on fields of kind String; the placeholder branch is
never exercised. -/
def goString : RValue → String
  | .VString s => s
  | _ => ""

/-- The generic contains helper of validate_utils.go. -/
def contains [BEq α] (s : List α) (needle : α) : Bool :=
  match s with
  | [] => false
  | v :: rest => if v == needle then true else contains rest needle

/-- Decimal value of a digit list (helper for Atoi). -/
def digitsVal (l : List Char) : Nat :=
  l.foldl (fun acc c => acc * 10 + (c.toNat - 48)) 0

/-- Go strconv.Atoi: an optional sign followed by one or more decimal
digits.  Overflow outside the machine int range (which Go reports as an
error) is not modelled; no claim depends on it. -/
def Atoi (s : String) : Option Int :=
  let signDigits : Bool × List Char :=
    match s.data with
    | '-' :: rest => (true, rest)
    | '+' :: rest => (false, rest)
    | l => (false, l)
  let neg := signDigits.1
  let ds := signDigits.2
  if ds = [] then none
  else if ds.all Char.isDigit then
    if neg then some (-(digitsVal ds : Int)) else some ((digitsVal ds : Int))
  else none

/-- Helper for splitOnChar: accumulates the current chunk in reverse. -/
def splitOnCharAux (c : Char) : List Char → List Char → List String
  | [], acc => [String.mk acc.reverse]
  | x :: xs, acc =>
    if x = c then String.mk acc.reverse :: splitOnCharAux c xs []
    else splitOnCharAux c xs (x :: acc)

/-- Go strings.Split with a one-character separator (the only form the
source uses, with separators ";", ":" and ","). -/
def splitOnChar (c : Char) (s : String) : List String :=
  splitOnCharAux c s.data []

/-- Rendering of an int slice by the fmt %v verb (as in the in-validator
violation messages): elements space-separated inside brackets. -/
def fmtIntSlice (l : List Int) : String :=
  "[" ++ String.intercalate " " (l.map toString) ++ "]"

/-- Rendering of a string slice by the fmt %v verb. -/
def fmtStrSlice (l : List String) : String :=
  "[" ++ String.intercalate " " l ++ "]"

/-- The error values the engine produces: the two package-level sentinel
errors that enter aggregates, a fmt.Errorf message, and a ValidationError
used as the cause of another (the nested-record wrapping).  ErrNotStruct
never enters an aggregate and is represented in VOut instead. -/
inductive GoErr where
  | ErrInvalidValidatorSyntax
  | ErrValidateForUnexportedFields
  | errorf (msg : String)
  | validationErr (Field : String) (Err : GoErr)
deriving DecidableEq

/-- The Error method of the cause: sentinel errors render their fixed
message, fmt.Errorf its formatted message, and a wrapped ValidationError
renders via ValidationError.Error. -/
def GoErr.Error : GoErr → String
  | .ErrInvalidValidatorSyntax => "invalid validator syntax"
  | .ErrValidateForUnexportedFields => "validation for unexported field is not allowed"
  | .errorf msg => msg
  | .validationErr f e => f ++ ": " ++ GoErr.Error e

/-- ValidationError: a field name paired with the underlying cause. -/
structure ValidationError where
  Field : String
  Err : GoErr
deriving DecidableEq

/-- ValidationError.Error: fmt.Sprintf of the field name, a colon-space,
and the cause's Error output. -/
def ValidationError.Error (v : ValidationError) : String :=
  v.Field ++ ": " ++ v.Err.Error

/-- ValidationErrors: the ordered aggregate. -/
abbrev ValidationErrors := List ValidationError

/-- ValidationErrors.Error: a singleton aggregate renders as its sole
underlying cause with no field prefix; otherwise the per-error strings are
joined with newlines. -/
def ValidationErrors.Error (v : ValidationErrors) : String :=
  match v with
  | [e] => e.Err.Error
  | _ => String.intercalate "\n" (v.map ValidationError.Error)

/-- The seven field validator shapes of validate_utils.go, each carrying
its parsed parameter. -/
inductive FieldValidator where
  | intMinValidator (min : Int)
  | intMaxValidator (max : Int)
  | intInValidator (vals : List Int)
  | strLenValidator (l : Int)
  | strMinValidator (min : Int)
  | strMaxValidator (max : Int)
  | strInValidator (vals : List String)
deriving DecidableEq

/-- The validate method of each field validator.  String validators compare
the Go len of the value, i.e. its UTF-8 byte length. -/
def FieldValidator.validate (fv : FieldValidator) (x : RValue) : Option GoErr :=
  match fv with
  | .intMinValidator min =>
    let val := goInt x
    if val < min then
      some (.errorf (toString val ++ " is less than min allowed " ++ toString min))
    else none
  | .intMaxValidator max =>
    let val := goInt x
    if val > max then
      some (.errorf (toString val ++ " is higher than max allowed " ++ toString max))
    else none
  | .intInValidator vals =>
    let val := goInt x
    if contains vals val then none
    else some (.errorf (toString val ++ " is not in " ++ fmtIntSlice vals))
  | .strLenValidator l =>
    let val := goString x
    if (goLen val : Int) ≠ l then
      some (.errorf ("len of " ++ val ++ " is not equal to " ++ toString l))
    else none
  | .strMinValidator min =>
    let val := goString x
    if (goLen val : Int) < min then
      some (.errorf ("len of " ++ val ++ " is less than min allowed " ++ toString min))
    else none
  | .strMaxValidator max =>
    let val := goString x
    if (goLen val : Int) > max then
      some (.errorf ("len of " ++ val ++ " is higher than max allowed " ++ toString max))
    else none
  | .strInValidator vals =>
    let val := goString x
    if contains vals val then none
    else some (.errorf (val ++ " is not in " ++ fmtStrSlice vals))

/-- newIntMinValidator: Atoi the parameter. -/
def newIntMinValidator (s : String) : Option FieldValidator :=
  (Atoi s).map FieldValidator.intMinValidator

/-- newIntMaxValidator: Atoi the parameter. -/
def newIntMaxValidator (s : String) : Option FieldValidator :=
  (Atoi s).map FieldValidator.intMaxValidator

/-- The loop of parseIntSlice: Atoi every element, failing on the first
element that does not parse. -/
def atoiList : List String → Option (List Int)
  | [] => some []
  | v :: rest =>
    match Atoi v with
    | none => none
    | some val => (atoiList rest).map (val :: ·)

/-- parseIntSlice: split on commas and Atoi every element. -/
def parseIntSlice (s : String) : Option (List Int) :=
  atoiList (splitOnChar ',' s)

/-- newIntInValidator: parseIntSlice the parameter. -/
def newIntInValidator (s : String) : Option FieldValidator :=
  (parseIntSlice s).map FieldValidator.intInValidator

/-- newStrLenValidator: Atoi the parameter. -/
def newStrLenValidator (s : String) : Option FieldValidator :=
  (Atoi s).map FieldValidator.strLenValidator

/-- newStrMinValidator: Atoi the parameter. -/
def newStrMinValidator (s : String) : Option FieldValidator :=
  (Atoi s).map FieldValidator.strMinValidator

/-- newStrMaxValidator: Atoi the parameter. -/
def newStrMaxValidator (s : String) : Option FieldValidator :=
  (Atoi s).map FieldValidator.strMaxValidator

/-- newStrInValidator: split on commas; never fails. -/
def newStrInValidator (s : String) : Option FieldValidator :=
  some (FieldValidator.strInValidator (splitOnChar ',' s))

/-- The intValidators map: constraint name to creator, for kind Int. -/
def intValidators (k : String) : Option (String → Option FieldValidator) :=
  if k = "min" then some newIntMinValidator
  else if k = "max" then some newIntMaxValidator
  else if k = "in" then some newIntInValidator
  else none

/-- The strValidators map: constraint name to creator, for kind String. -/
def strValidators (k : String) : Option (String → Option FieldValidator) :=
  if k = "len" then some newStrLenValidator
  else if k = "min" then some newStrMinValidator
  else if k = "max" then some newStrMaxValidator
  else if k = "in" then some newStrInValidator
  else none

/-- Outcome of parseValidators: a validator list, the
ErrInvalidValidatorSyntax error, or the log.Panicf unsupported-type
panic. -/
inductive ParseResult where
  | ok (validators : List FieldValidator)
  | err
  | panicked
deriving DecidableEq

/-- One iteration of the parseValidators loop: split the clause on the
colon; exactly two parts, both non-empty; the key must be in the table and
the creator must accept the value. -/
def parseKV (fieldValidators : String → Option (String → Option FieldValidator))
    (kv : String) : Option FieldValidator :=
  match splitOnChar ':' kv with
  | [k, v] =>
    if k = "" ∨ v = "" then none
    else
      match fieldValidators k with
      | some createValidator => createValidator v
      | none => none
  | _ => none

/-- The parseValidators loop over all clauses: first failing clause aborts
the whole parse; otherwise validators are collected in clause order. -/
def parseKVList (fieldValidators : String → Option (String → Option FieldValidator)) :
    List String → Option (List FieldValidator)
  | [] => some []
  | kv :: rest =>
    match parseKV fieldValidators kv with
    | none => none
    | some validator => (parseKVList fieldValidators rest).map (validator :: ·)

/-- parseValidators: choose the table by kind (any kind other than Int and
String hits the log.Panicf branch), split the tag on semicolons and parse
every clause. -/
def parseValidators (k : Kind) (tag : String) : ParseResult :=
  let tbl : Option (String → Option (String → Option FieldValidator)) :=
    match k with
    | Kind.Int => some intValidators
    | Kind.String => some strValidators
    | _ => none
  match tbl with
  | none => ParseResult.panicked
  | some fieldValidators =>
    match parseKVList fieldValidators (splitOnChar ';' tag) with
    | none => ParseResult.err
    | some validators => ParseResult.ok validators

mutual
/-- needValidation: an Int or String field needs validation when its
validate tag is present; a Struct field needs validation when any of its
fields (transitively) does; every other kind never needs validation.  Only
the static shape is inspected, never a runtime value. -/
def needValidation (tag : Option String) (v : RValue) : Bool :=
  match v with
  | .VInt _ => tag.isSome
  | .VString _ => tag.isSome
  | .VStruct fields => needValidationFields fields
  | .VOther _ => false

/-- The loop inside needValidation over a struct's fields: true when some
field needs validation. -/
def needValidationFields : RFields → Bool
  | .nil => false
  | .cons _ tag v rest => needValidation tag v || needValidationFields rest
end

/-- Classification of the error value Validate returns: nil (success), the
ErrNotStruct sentinel, or a non-empty ValidationErrors aggregate. -/
inductive VOut where
  | success
  | notStruct
  | errs (errs : ValidationErrors)
deriving DecidableEq

/-- The validator loop at the end of Validate for one leaf field: every
validator runs against the field value and every failure appends one error
qualified with the field name; earlier failures stop nothing. -/
def runValidators (name : String) : List FieldValidator → RValue → List ValidationError
  | [], _ => []
  | validator :: rest, v =>
    match validator.validate v with
    | some e => ValidationError.mk name e :: runValidators name rest v
    | none => runValidators name rest v

mutual
/-- Body of Validate for a non-nil input: a non-struct kind returns
ErrNotStruct; a struct walks its fields, returning nil when no error was
collected and the aggregate otherwise.  The none result models a panic
escaping the call. -/
def ValidateV (v : RValue) : Option VOut :=
  match v with
  | .VStruct fields =>
    match validateFields fields with
    | none => none
    | some errs => if errs.length = 0 then some VOut.success else some (VOut.errs errs)
  | _ => some VOut.notStruct

/-- The field loop of Validate.  Per field: skip when validation is not
needed; record ErrValidateForUnexportedFields for unexported fields;
recurse through the entry point for struct fields, wrapping every nested
error with this field's name (a nested ErrNotStruct would make the
ValidationErrors type assertion panic — modelled none — but is
unreachable); otherwise parse the tag and run the validators.  Errors
accumulate in field order. -/
def validateFields : RFields → Option ValidationErrors
  | .nil => some []
  | .cons name tag v rest =>
    if needValidation tag v = false then validateFields rest
    else if isExported name = false then
      (validateFields rest).map
        (fun tl => ValidationError.mk name GoErr.ErrValidateForUnexportedFields :: tl)
    else if kindOf v = Kind.Struct then
      match ValidateV v with
      | none => none
      | some VOut.notStruct => none
      | some VOut.success => validateFields rest
      | some (VOut.errs nestedErrs) =>
        (validateFields rest).map
          (fun tl =>
            (nestedErrs.map fun e => ValidationError.mk name (GoErr.validationErr e.Field e.Err)) ++ tl)
    else
      match parseValidators (kindOf v) (tagGet tag) with
      | ParseResult.panicked => none
      | ParseResult.err =>
        (validateFields rest).map
          (fun tl => ValidationError.mk name GoErr.ErrInvalidValidatorSyntax :: tl)
      | ParseResult.ok validators =>
        (validateFields rest).map (fun tl => runValidators name validators v ++ tl)
end

/-- Validate, the public entry point, on a possibly-nil input.  For a nil
interface value reflect.TypeOf returns a nil Type and the Kind call on it
panics — modelled as none; otherwise ValidateV runs. -/
def Validate (v : Option RValue) : Option VOut :=
  match v with
  | none => none
  | some w => ValidateV w

/-- The body of the Validate field loop for one field, as a standalone
function; validateFields_cons below proves the loop processes each field
exactly this way and appends the results in field order. -/
def validateField (name : String) (tag : Option String) (v : RValue) :
    Option ValidationErrors :=
  if needValidation tag v = false then some []
  else if isExported name = false then
    some [ValidationError.mk name GoErr.ErrValidateForUnexportedFields]
  else if kindOf v = Kind.Struct then
    match Validate (some v) with
    | none => none
    | some VOut.notStruct => none
    | some VOut.success => some []
    | some (VOut.errs nestedErrs) =>
      some (nestedErrs.map fun e => ValidationError.mk name (GoErr.validationErr e.Field e.Err))
  else
    match parseValidators (kindOf v) (tagGet tag) with
    | ParseResult.panicked => none
    | ParseResult.err => some [ValidationError.mk name GoErr.ErrInvalidValidatorSyntax]
    | ParseResult.ok validators => some (runValidators name validators v)

/-- Helper: the length of a filterMap is the number of elements the
function maps to some value. -/
theorem length_filterMap_eq (f : α → Option β) :
    ∀ l : List α, (l.filterMap f).length = (l.filter (fun a => (f a).isSome)).length := by
  intro l
  induction l with
  | nil => rfl
  | cons a t ih => cases h : f a <;> simp [h, ih]

/-- Helper: the validator loop is the filterMap of the validators by their
outcome on the field value: every validator is evaluated, each failure
contributes one field-qualified error, in validator order. -/
theorem runValidators_eq_filterMap (name : String) (vs : List FieldValidator) (v : RValue) :
    runValidators name vs v =
      vs.filterMap (fun c => (c.validate v).map (fun e => ValidationError.mk name e)) := by
  induction vs with
  | nil => rfl
  | cons c rest ih => cases h : c.validate v <;> simp [runValidators, h, ih]

/-- Helper: clause-list parsing fails exactly when some clause fails. -/
theorem parseKVList_eq_none_iff (tbl : String → Option (String → Option FieldValidator))
    (kvs : List String) :
    parseKVList tbl kvs = none ↔ ∃ kv ∈ kvs, parseKV tbl kv = none := by
  induction kvs with
  | nil => simp [parseKVList]
  | cons kv rest ih =>
    cases h : parseKV tbl kv with
    | none =>
      simp only [parseKVList, h]
      exact iff_of_true trivial ⟨kv, by simp, h⟩
    | some w =>
      simp [parseKVList, h, ih]

/-- Helper: splitting on a character yields one more part than there are
occurrences of the character. -/
theorem splitOnCharAux_length (c : Char) :
    ∀ (l acc : List Char), (splitOnCharAux c l acc).length = l.count c + 1 := by
  intro l
  induction l with
  | nil => intro acc; simp [splitOnCharAux]
  | cons x xs ih =>
    intro acc
    by_cases h : x = c <;> simp [splitOnCharAux, h, ih, List.count_cons]

/-- Helper: the number of parts strings.Split produces is the separator
count plus one. -/
theorem splitOnChar_length (c : Char) (s : String) :
    (splitOnChar c s).length = s.data.count c + 1 :=
  splitOnCharAux_length c s.data []

/-- Helper: ValidateV on a struct never produces the ErrNotStruct result. -/
theorem ValidateV_VStruct_ne_notStruct (fields : RFields) :
    ValidateV (RValue.VStruct fields) ≠ some VOut.notStruct := by
  cases hf : validateFields fields with
  | none => simp [ValidateV, hf]
  | some errs => by_cases he : errs.length = 0 <;> simp [ValidateV, hf, he]

/-- Helper: parseValidators on the Int kind never hits the panic branch. -/
theorem parseValidators_Int_ne_panicked (tag : String) :
    parseValidators Kind.Int tag ≠ ParseResult.panicked := by
  simp only [parseValidators]
  cases parseKVList intValidators (splitOnChar ';' tag) <;> simp

/-- Helper: parseValidators on the String kind never hits the panic
branch. -/
theorem parseValidators_String_ne_panicked (tag : String) :
    parseValidators Kind.String tag ≠ ParseResult.panicked := by
  simp only [parseValidators]
  cases parseKVList strValidators (splitOnChar ';' tag) <;> simp

mutual
/-- Helper: ValidateV never panics. -/
theorem ValidateV_total : ∀ v : RValue, ValidateV v ≠ none
  | .VInt _ => by simp [ValidateV]
  | .VString _ => by simp [ValidateV]
  | .VOther _ => by simp [ValidateV]
  | .VStruct fields => by
    have h := validateFields_total fields
    cases hf : validateFields fields with
    | none => exact absurd hf h
    | some errs => by_cases he : errs.length = 0 <;> simp [ValidateV, hf, he]

/-- Helper: the field loop never panics: the parse branch is only reached
with kind Int or String, and a nested result is never ErrNotStruct. -/
theorem validateFields_total : ∀ fs : RFields, validateFields fs ≠ none
  | .nil => by simp [validateFields]
  | .cons name tag (.VInt n) rest => by
    have hr := validateFields_total rest
    cases h1 : needValidation tag (RValue.VInt n) with
    | false => simpa [validateFields, h1] using hr
    | true =>
      cases h2 : isExported name with
      | false =>
        cases hrest : validateFields rest with
        | none => exact absurd hrest hr
        | some tl => simp [validateFields, h1, h2, hrest]
      | true =>
        cases hp : parseValidators Kind.Int (tagGet tag) with
        | panicked => exact absurd hp (parseValidators_Int_ne_panicked _)
        | err =>
          cases hrest : validateFields rest with
          | none => exact absurd hrest hr
          | some tl => simp [validateFields, h1, h2, hrest, kindOf, hp]
        | ok validators =>
          cases hrest : validateFields rest with
          | none => exact absurd hrest hr
          | some tl => simp [validateFields, h1, h2, hrest, kindOf, hp]
  | .cons name tag (.VString s) rest => by
    have hr := validateFields_total rest
    cases h1 : needValidation tag (RValue.VString s) with
    | false => simpa [validateFields, h1] using hr
    | true =>
      cases h2 : isExported name with
      | false =>
        cases hrest : validateFields rest with
        | none => exact absurd hrest hr
        | some tl => simp [validateFields, h1, h2, hrest]
      | true =>
        cases hp : parseValidators Kind.String (tagGet tag) with
        | panicked => exact absurd hp (parseValidators_String_ne_panicked _)
        | err =>
          cases hrest : validateFields rest with
          | none => exact absurd hrest hr
          | some tl => simp [validateFields, h1, h2, hrest, kindOf, hp]
        | ok validators =>
          cases hrest : validateFields rest with
          | none => exact absurd hrest hr
          | some tl => simp [validateFields, h1, h2, hrest, kindOf, hp]
  | .cons name tag (.VStruct inner) rest => by
    have hr := validateFields_total rest
    have hv := ValidateV_total (RValue.VStruct inner)
    have hns := ValidateV_VStruct_ne_notStruct inner
    cases h1 : needValidation tag (RValue.VStruct inner) with
    | false => simpa [validateFields, h1] using hr
    | true =>
      cases h2 : isExported name with
      | false =>
        cases hrest : validateFields rest with
        | none => exact absurd hrest hr
        | some tl => simp [validateFields, h1, h2, hrest]
      | true =>
        cases hs : ValidateV (RValue.VStruct inner) with
        | none => exact absurd hs hv
        | some out =>
          cases out with
          | notStruct => exact absurd hs hns
          | success => simpa [validateFields, h1, h2, kindOf, hs] using hr
          | errs nestedErrs =>
            cases hrest : validateFields rest with
            | none => exact absurd hrest hr
            | some tl => simp [validateFields, h1, h2, kindOf, hs, hrest]
  | .cons name tag (.VOther k) rest => by
    have hr := validateFields_total rest
    simpa [validateFields, needValidation] using hr
end

/-- Helper: a struct none of whose fields needs validation validates to
the empty error list. -/
theorem validateFields_of_no_need : ∀ fs : RFields,
    needValidationFields fs = false → validateFields fs = some []
  | .nil, _ => rfl
  | .cons name tag v rest, h => by
    have hs : needValidation tag v = false ∧ needValidationFields rest = false := by
      simpa [needValidationFields] using h
    have ih := validateFields_of_no_need rest hs.2
    simp [validateFields, hs.1, ih]

/-- Helper: the field loop on a cons cell processes the head field exactly
as validateField does and appends the tail's errors after the head's, so
the aggregate is in field-declaration order. -/
theorem validateFields_cons (name : String) (tag : Option String) (v : RValue) (rest : RFields) :
    validateFields (RFields.cons name tag v rest) =
      (validateField name tag v).bind (fun es => (validateFields rest).map (es ++ ·)) := by
  cases h1 : needValidation tag v with
  | false =>
    cases hrest : validateFields rest <;>
      simp [validateFields, validateField, h1, hrest]
  | true =>
    cases h2 : isExported name with
    | false =>
      cases hrest : validateFields rest <;>
        simp [validateFields, validateField, h1, h2, hrest]
    | true =>
      by_cases h3 : kindOf v = Kind.Struct
      · cases hs : ValidateV v with
        | none => simp [validateFields, validateField, Validate, h1, h2, h3, hs]
        | some out =>
          cases out <;> cases hrest : validateFields rest <;>
            simp [validateFields, validateField, Validate, h1, h2, h3, hs, hrest]
      · cases hp : parseValidators (kindOf v) (tagGet tag) <;>
          cases hrest : validateFields rest <;>
            simp [validateFields, validateField, h1, h2, h3, hp, hrest]

/-- C1 (corrected): every non-nil input whose top-level kind is not Struct
makes Validate return the ErrNotStruct result, with no aggregate and no
field detail; a struct input never gets that result; but a nil input — the
claim includes nil — panics (reflect.TypeOf gives a nil Type whose Kind
call dereferences nil) instead of returning the shape error. -/
theorem claim_C1_shape_error :
    (∀ v : RValue, kindOf v ≠ Kind.Struct → Validate (some v) = some VOut.notStruct)
    ∧ (∀ fields : RFields, Validate (some (RValue.VStruct fields)) ≠ some VOut.notStruct)
    ∧ Validate none = none := by
  refine ⟨?_, ?_, rfl⟩
  · intro v h
    cases v with
    | VInt n => rfl
    | VString s => rfl
    | VOther k => rfl
    | VStruct fields => exact absurd rfl h
  · intro fields
    exact ValidateV_VStruct_ne_notStruct fields

/-- C1 counterexample: on the nil input the code does not return the shape
error (the Kind call on the nil reflect.Type panics, modelled none). -/
theorem claim_C1_counterexample : Validate none ≠ some VOut.notStruct := by decide

/-- C1 witness: concrete non-struct inputs receive ErrNotStruct and a
concrete struct input does not. -/
theorem claim_C1_witness :
    Validate (some (RValue.VInt 5)) = some VOut.notStruct
    ∧ Validate (some (RValue.VOther Kind.Map)) = some VOut.notStruct
    ∧ Validate (some (RValue.VStruct RFields.nil)) ≠ some VOut.notStruct :=
  ⟨claim_C1_shape_error.1 (RValue.VInt 5) (by decide),
   claim_C1_shape_error.1 (RValue.VOther Kind.Map) (by decide),
   claim_C1_shape_error.2.1 RFields.nil⟩

/-- C2 counterexample: text constraints do not use character length: the
one-character string holding the letter e-acute has character length 1,
below a min bound of 2, yet the min validator reports no violation
(its UTF-8 length is 2). -/
theorem claim_C2_counterexample :
    ¬ (∀ (s : String) (b : Int),
        (FieldValidator.validate (FieldValidator.strMinValidator b) (RValue.VString s)).isSome = true
          ↔ (s.length : Int) < b) := by
  intro h
  have h2 := (h "é" 2).mpr (by decide)
  exact absurd h2 (by decide)

/-- C2 (amended): for every text field value and bound, the min constraint
violates iff the UTF-8 byte length (Go len) is below the bound, max iff it
is above, and len iff it differs — byte length, not character count. -/
theorem claim_C2_text_length_bytes :
    ∀ (s : String) (b : Int),
      ((FieldValidator.validate (FieldValidator.strMinValidator b) (RValue.VString s)).isSome = true
        ↔ (goLen s : Int) < b)
      ∧ ((FieldValidator.validate (FieldValidator.strMaxValidator b) (RValue.VString s)).isSome = true
        ↔ (goLen s : Int) > b)
      ∧ ((FieldValidator.validate (FieldValidator.strLenValidator b) (RValue.VString s)).isSome = true
        ↔ (goLen s : Int) ≠ b) := by
  intro s b
  refine ⟨?_, ?_, ?_⟩
  · by_cases hc : (goLen s : Int) < b <;> simp [FieldValidator.validate, goString, hc]
  · by_cases hc : (goLen s : Int) > b <;> simp [FieldValidator.validate, goString, hc]
  · by_cases hc : (goLen s : Int) = b <;> simp [FieldValidator.validate, goString, hc]

/-- C3: when a leaf field's annotation parses into a validator list, the
field's result is the filterMap of that list — every validator is
evaluated against the value regardless of earlier failures, each violated
one contributes exactly one error, in declaration order — and the number
of errors equals the number of violated validators. -/
theorem claim_C3_constraints_independent :
    ∀ (name : String) (tag : Option String) (v : RValue) (vs : List FieldValidator),
      needValidation tag v = true → isExported name = true → kindOf v ≠ Kind.Struct →
      parseValidators (kindOf v) (tagGet tag) = ParseResult.ok vs →
      validateField name tag v =
        some (vs.filterMap (fun c => (c.validate v).map (fun e => ValidationError.mk name e)))
      ∧ (vs.filterMap (fun c => (c.validate v).map (fun e => ValidationError.mk name e))).length
          = (vs.filter (fun c => (c.validate v).isSome)).length := by
  intro name tag v vs h1 h2 h3 h4
  constructor
  · simp [validateField, h1, h2, h3, h4, runValidators_eq_filterMap]
  · rw [length_filterMap_eq]
    simp

/-- C3 witness: an int field violating two of its three constraints yields
exactly its two errors via the filterMap form. -/
theorem claim_C3_witness :
    validateField "Age" (some "min:10;max:100;in:1,2") (RValue.VInt 5) =
      some ([FieldValidator.intMinValidator 10, FieldValidator.intMaxValidator 100,
             FieldValidator.intInValidator [1, 2]].filterMap
        (fun c => (c.validate (RValue.VInt 5)).map (fun e => ValidationError.mk "Age" e))) :=
  (claim_C3_constraints_independent "Age" (some "min:10;max:100;in:1,2") (RValue.VInt 5)
    [FieldValidator.intMinValidator 10, FieldValidator.intMaxValidator 100,
     FieldValidator.intInValidator [1, 2]]
    (by decide) (by decide) (by decide) (by decide)).1

/-- C4: annotation parsing is all-or-nothing.  The number of colon parts of
a clause is the separator count plus one (so parts-not-two means not
exactly one separator); the clause list fails iff some clause fails; a
clause succeeds iff it splits into exactly two non-empty parts whose key
is a known constraint whose creator accepts the value; a failed parse is
ErrInvalidValidatorSyntax for both kinds; and the field loop then records
exactly that one error for the field, evaluating no constraints. -/
theorem claim_C4_annotation_all_or_nothing :
    (∀ kv : String, (splitOnChar ':' kv).length = kv.data.count ':' + 1)
    ∧ (∀ (tbl : String → Option (String → Option FieldValidator)) (kvs : List String),
        parseKVList tbl kvs = none ↔ ∃ kv ∈ kvs, parseKV tbl kv = none)
    ∧ (∀ (tbl : String → Option (String → Option FieldValidator)) (kv : String)
        (w : FieldValidator),
        parseKV tbl kv = some w ↔
          ∃ k v c, splitOnChar ':' kv = [k, v] ∧ k ≠ "" ∧ v ≠ "" ∧ tbl k = some c ∧ c v = some w)
    ∧ (∀ tag : String, parseValidators Kind.Int tag = ParseResult.err ↔
        ∃ kv ∈ splitOnChar ';' tag, parseKV intValidators kv = none)
    ∧ (∀ tag : String, parseValidators Kind.String tag = ParseResult.err ↔
        ∃ kv ∈ splitOnChar ';' tag, parseKV strValidators kv = none)
    ∧ (∀ (name : String) (tag : Option String) (v : RValue),
        needValidation tag v = true → isExported name = true → kindOf v ≠ Kind.Struct →
        parseValidators (kindOf v) (tagGet tag) = ParseResult.err →
        validateField name tag v = some [ValidationError.mk name GoErr.ErrInvalidValidatorSyntax]) := by
  refine ⟨fun kv => splitOnChar_length ':' kv, parseKVList_eq_none_iff, ?_, ?_, ?_, ?_⟩
  · intro tbl kv w
    constructor
    · intro h
      rcases hsplit : splitOnChar ':' kv with _ | ⟨k, _ | ⟨v, _ | t⟩⟩ <;>
        simp only [parseKV, hsplit] at h
      · exact absurd h (by simp)
      · exact absurd h (by simp)
      · by_cases hkv : k = "" ∨ v = ""
        · rw [if_pos hkv] at h
          exact absurd h (by simp)
        · rw [if_neg hkv] at h
          push_neg at hkv
          cases htbl : tbl k with
          | none => rw [htbl] at h; exact absurd h (by simp)
          | some c =>
            rw [htbl] at h
            exact ⟨k, v, c, rfl, hkv.1, hkv.2, htbl, h⟩
      · exact absurd h (by simp)
    · rintro ⟨k, v, c, hsplit, hk, hv, htbl, hc⟩
      simp [parseKV, hsplit, hk, hv, htbl, hc]
  · intro tag
    refine Iff.trans ?_ (parseKVList_eq_none_iff intValidators (splitOnChar ';' tag))
    cases hp : parseKVList intValidators (splitOnChar ';' tag) <;> simp [parseValidators, hp]
  · intro tag
    refine Iff.trans ?_ (parseKVList_eq_none_iff strValidators (splitOnChar ';' tag))
    cases hp : parseKVList strValidators (splitOnChar ';' tag) <;> simp [parseValidators, hp]
  · intro name tag v h1 h2 h3 h4
    simp [validateField, h1, h2, h3, h4]

/-- C4 witness: a non-numeric len parameter makes the whole annotation
malformed and the field records exactly one syntax error. -/
theorem claim_C4_witness :
    validateField "Foo" (some "len:abcdef") (RValue.VString "") =
      some [ValidationError.mk "Foo" GoErr.ErrInvalidValidatorSyntax] :=
  claim_C4_annotation_all_or_nothing.2.2.2.2.2 "Foo" (some "len:abcdef") (RValue.VString "")
    (by decide) (by decide) (by decide) (by decide)

/-- C5: a needed, exported struct field is validated by recursing through
the entry point Validate; every nested error is re-qualified by wrapping
it with just the outer field's name, preserving the inner cause, and a
clean nested validation contributes nothing. -/
theorem claim_C5_nested_requalified :
    ∀ (name : String) (tag : Option String) (inner : RFields),
      needValidation tag (RValue.VStruct inner) = true → isExported name = true →
      (∀ es : ValidationErrors, Validate (some (RValue.VStruct inner)) = some (VOut.errs es) →
        validateField name tag (RValue.VStruct inner) =
          some (es.map fun e => ValidationError.mk name (GoErr.validationErr e.Field e.Err)))
      ∧ (Validate (some (RValue.VStruct inner)) = some VOut.success →
          validateField name tag (RValue.VStruct inner) = some []) := by
  intro name tag inner h1 h2
  constructor
  · intro es hes
    simp [validateField, h1, h2, kindOf, hes]
  · intro hs
    simp [validateField, h1, h2, kindOf, hs]

/-- C5 witness: a violation two records deep yields exactly one error
wrapped through both containing field names with the innermost cause
preserved. -/
theorem claim_C5_witness :
    validateField "OuterNested" none
        (RValue.VStruct (RFields.cons "InnerNested" none
          (RValue.VStruct (RFields.cons "A" (some "min:10") (RValue.VInt 0) RFields.nil))
          RFields.nil)) =
      some ([ValidationError.mk "InnerNested"
               (GoErr.validationErr "A" (GoErr.errorf "0 is less than min allowed 10"))].map
        (fun e => ValidationError.mk "OuterNested" (GoErr.validationErr e.Field e.Err))) :=
  ((claim_C5_nested_requalified "OuterNested" none
      (RFields.cons "InnerNested" none
        (RValue.VStruct (RFields.cons "A" (some "min:10") (RValue.VInt 0) RFields.nil))
        RFields.nil)
      (by decide) (by decide)).1
    [ValidationError.mk "InnerNested"
      (GoErr.validationErr "A" (GoErr.errorf "0 is less than min allowed 10"))]
    (by decide))

/-- C6: a singleton aggregate renders as its sole cause's message with no
field prefix; an aggregate of two or more renders as the newline-join of
the per-error field-prefixed strings. -/
theorem claim_C6_rendering :
    (∀ e : ValidationError, ValidationErrors.Error [e] = GoErr.Error e.Err)
    ∧ (∀ l : ValidationErrors, 2 ≤ l.length →
        ValidationErrors.Error l =
          String.intercalate "\n" (l.map (fun e => e.Field ++ ": " ++ GoErr.Error e.Err))) := by
  constructor
  · intro e; rfl
  · intro l h
    rcases l with _ | ⟨a, _ | ⟨b, t⟩⟩
    · simp at h
    · simp at h
    · rfl

/-- C6 witness: a two-error aggregate renders as the newline-join of the
field-prefixed messages. -/
theorem claim_C6_witness :
    ValidationErrors.Error
        [ValidationError.mk "A" GoErr.ErrInvalidValidatorSyntax,
         ValidationError.mk "B" (GoErr.errorf "boom")] =
      String.intercalate "\n"
        ([ValidationError.mk "A" GoErr.ErrInvalidValidatorSyntax,
          ValidationError.mk "B" (GoErr.errorf "boom")].map
          (fun e => e.Field ++ ": " ++ GoErr.Error e.Err)) :=
  claim_C6_rendering.2 _ (by decide)

/-- C7: an unexported field that needs validation yields exactly one
ErrValidateForUnexportedFields error carrying the field's name, whatever
the field's value, and the loop continues with the remaining fields. -/
theorem claim_C7_unexported :
    ∀ (name : String) (tag : Option String) (v : RValue),
      needValidation tag v = true → isExported name = false →
      validateField name tag v = some [ValidationError.mk name GoErr.ErrValidateForUnexportedFields]
      ∧ ∀ rest : RFields, validateFields (RFields.cons name tag v rest) =
          (validateFields rest).map
            (ValidationError.mk name GoErr.ErrValidateForUnexportedFields :: ·) := by
  intro name tag v h1 h2
  constructor
  · simp [validateField, h1, h2]
  · intro rest
    simp [validateFields, h1, h2]

/-- C7 witness: the unexported tagged string field of the repository's own
test, at two different values, each time giving exactly the one error and
continuing. -/
theorem claim_C7_witness :
    validateField "foo" (some "len:10") (RValue.VString "") =
      some [ValidationError.mk "foo" GoErr.ErrValidateForUnexportedFields]
    ∧ validateField "foo" (some "len:10") (RValue.VString "0123456789") =
      some [ValidationError.mk "foo" GoErr.ErrValidateForUnexportedFields]
    ∧ validateFields (RFields.cons "foo" (some "len:10") (RValue.VString "") RFields.nil) =
      (validateFields RFields.nil).map
        (ValidationError.mk "foo" GoErr.ErrValidateForUnexportedFields :: ·) :=
  ⟨(claim_C7_unexported "foo" (some "len:10") (RValue.VString "") (by decide) (by decide)).1,
   (claim_C7_unexported "foo" (some "len:10") (RValue.VString "0123456789")
      (by decide) (by decide)).1,
   (claim_C7_unexported "foo" (some "len:10") (RValue.VString "") (by decide) (by decide)).2
     RFields.nil⟩

/-- C8: the aggregate is assembled in field-declaration order (each field's
errors — themselves in constraint order, see C3 — precede the later
fields'); a clean traversal returns the nil error, never an empty
aggregate, in particular the errs result is always non-empty, and a record
needing no validation anywhere succeeds. -/
theorem claim_C8_order_and_success :
    (∀ (fields : RFields) (errs : ValidationErrors),
        Validate (some (RValue.VStruct fields)) = some (VOut.errs errs) → errs ≠ [])
    ∧ (∀ fields : RFields, validateFields fields = some [] →
        Validate (some (RValue.VStruct fields)) = some VOut.success)
    ∧ (∀ (name : String) (tag : Option String) (v : RValue) (rest : RFields),
        validateFields (RFields.cons name tag v rest) =
          (validateField name tag v).bind (fun es => (validateFields rest).map (es ++ ·)))
    ∧ (∀ fields : RFields, needValidationFields fields = false →
        Validate (some (RValue.VStruct fields)) = some VOut.success) := by
  refine ⟨?_, ?_, validateFields_cons, ?_⟩
  · intro fields errs h
    cases hf : validateFields fields with
    | none => simp [Validate, ValidateV, hf] at h
    | some l =>
      by_cases he : l.length = 0
      · simp [Validate, ValidateV, hf, he] at h
      · simp [Validate, ValidateV, hf, he] at h
        intro hnil
        rw [h, hnil] at he
        exact he rfl
  · intro fields h
    simp [Validate, ValidateV, h]
  · intro fields h
    simp [Validate, ValidateV, validateFields_of_no_need fields h]

/-- C8 witness: a one-field failing record gives a non-empty aggregate; an
empty record and an untagged record succeed with the nil error. -/
theorem claim_C8_witness :
    ([ValidationError.mk "A" (GoErr.errorf "5 is less than min allowed 10")] : ValidationErrors)
      ≠ []
    ∧ Validate (some (RValue.VStruct RFields.nil)) = some VOut.success
    ∧ Validate (some (RValue.VStruct (RFields.cons "A" none (RValue.VInt 0) RFields.nil))) =
        some VOut.success :=
  ⟨claim_C8_order_and_success.1
      (RFields.cons "A" (some "min:10") (RValue.VInt 5) RFields.nil) _ (by decide),
   claim_C8_order_and_success.2.1 RFields.nil (by decide),
   claim_C8_order_and_success.2.2.2
      (RFields.cons "A" none (RValue.VInt 0) RFields.nil) (by decide)⟩

/-- C9: the unsupported-type panic in parseValidators is unreachable from
Validate: whenever the parse branch is reached the field kind is Int or
String, so parseValidators does not hit the panic branch, and Validate on
a record never panics — no internal-defect condition enters the
aggregate. -/
theorem claim_C9_no_panic :
    (∀ (tag : Option String) (v : RValue),
        needValidation tag v = true → kindOf v ≠ Kind.Struct →
        parseValidators (kindOf v) (tagGet tag) ≠ ParseResult.panicked)
    ∧ (∀ fields : RFields, Validate (some (RValue.VStruct fields)) ≠ none) := by
  constructor
  · intro tag v h1 h3
    cases v with
    | VInt n => exact parseValidators_Int_ne_panicked _
    | VString s => exact parseValidators_String_ne_panicked _
    | VStruct fields => exact absurd rfl h3
    | VOther k => simp [needValidation] at h1
  · intro fields
    exact ValidateV_total (RValue.VStruct fields)

/-- C9 witness: a concrete reachable parse call does not panic, and a
concrete record validation does not panic. -/
theorem claim_C9_witness :
    parseValidators (kindOf (RValue.VInt 0)) (tagGet (some "")) ≠ ParseResult.panicked
    ∧ Validate (some (RValue.VStruct RFields.nil)) ≠ none :=
  ⟨claim_C9_no_panic.1 (some "") (RValue.VInt 0) (by decide) (by decide),
   claim_C9_no_panic.2 RFields.nil⟩

/-- C10: only kinds Int and String are validatable leaves: a field of any
other kind — e.g. the other integer widths — never needs validation and is
silently skipped by the field loop, with no constraint evaluation, no
malformed-annotation error and no unexported-field error, whatever its
annotation or name. -/
theorem claim_C10_other_kinds_skipped :
    (∀ (tag : Option String) (k : Kind), needValidation tag (RValue.VOther k) = false)
    ∧ (∀ (name : String) (tag : Option String) (k : Kind),
        validateField name tag (RValue.VOther k) = some [])
    ∧ (∀ (name : String) (tag : Option String) (k : Kind) (rest : RFields),
        validateFields (RFields.cons name tag (RValue.VOther k) rest) = validateFields rest)
    ∧ validateField "Age" (some "min:abc") (RValue.VOther Kind.Int8) = some []
    ∧ validateField "age" (some "min:0") (RValue.VOther Kind.Int64) = some [] := by
  refine ⟨fun tag k => rfl, ?_, ?_, by decide, by decide⟩
  · intro name tag k
    simp [validateField, needValidation]
  · intro name tag k rest
    simp [validateFields, needValidation]
